import Mathlib

/-!
Verification of the triage pipeline in `src/analysis/views.py`
(`parse_ginkgo_steps`, `DataContextService`, `ClassifierEngine`,
`DecisionEngine`).

Embedding conventions:
* Python strings are Lean `String`s; all character-level operations
  (`in`, `.lower()`, `.startswith`, `.split`, `.replace`, `.strip`,
  the literal-substring regex searches) are implemented over `String.data`
  (`List Char`) so that every definition reduces in the kernel.
  Logs in this repository are ASCII, where Python's `.lower()` and
  whitespace-`.strip()` agree with `Char.toLower` / `Char.isWhitespace`.
* Python float confidences are all exact multiples of 0.01
  (1.0, 0.99, 0.98, 0.97, 0.96, 0.95, 0.92, 0.90, 0.88, 0.5) and are only
  ever compared, never combined arithmetically.  They are embedded as
  `Nat` hundredths (100, 99, 98, 97, 96, 95, 92, 90, 88, 50), which is an
  order-isomorphic image of the float values used.
* Python `Dict[str, Any]` values (candidate `details`, action `payload`,
  the per-run `analysis` record) are association lists `List (String × PyVal)`
  with Python-dict update semantics (replace-in-place on an existing key,
  append otherwise).
* The `flow_log` side channel (a list of progress strings used only for the
  dashboard display) is dropped; no claim mentions it and no decision
  depends on it.
* `DataContextService` is a singleton wrapper around one mutable dict
  `SIMULATION_DB`; it is embedded as explicit state passing of a
  `Store := List (String × TestResult)` with dict key semantics.
-/

/-! ### Character-list string primitives (models of Python `str` operations) -/

/-- Predicate `isPrefixChars pat s`: `pat` is a prefix of `s` (Python `s.startswith(pat)`
at the character level). -/
def isPrefixChars : List Char → List Char → Bool
  | [], _ => true
  | _ :: _, [] => false
  | p :: ps, c :: cs => p == c && isPrefixChars ps cs

/-- Predicate `containsChars pat s`: `pat` occurs as a contiguous substring of `s`
(Python `pat in s`). -/
def containsChars (pat : List Char) : List Char → Bool
  | [] => isPrefixChars pat []
  | c :: cs => isPrefixChars pat (c :: cs) || containsChars pat cs

/-- Python `pat in s` on `String`s. -/
def strContains (s pat : String) : Bool :=
  containsChars pat.data s.data

/-- Python `s.lower()` (ASCII). -/
def lowerChars (cs : List Char) : List Char :=
  cs.map Char.toLower

/-- Python `re.search(pat, s, re.IGNORECASE)` for a pattern that is a literal
string (every pattern in the `patterns` table of `_regex_classifier` is
metacharacter-free): case-insensitive substring test. -/
def strContainsCI (s pat : String) : Bool :=
  containsChars (lowerChars pat.data) (lowerChars s.data)

/-- Python `s.split(sep)` for a one-character separator; keeps empty pieces. -/
def splitOnChar (sep : Char) : List Char → List (List Char)
  | [] => [[]]
  | c :: cs =>
    if c = sep then [] :: splitOnChar sep cs
    else
      match splitOnChar sep cs with
      | [] => [[c]]
      | l :: ls => (c :: l) :: ls

/-- Python `s.strip()`: drop leading and trailing whitespace. -/
def stripChars (cs : List Char) : List Char :=
  ((cs.dropWhile Char.isWhitespace).reverse.dropWhile Char.isWhitespace).reverse

/-! ### Step extractor: `parse_ginkgo_steps` (views.py lines 60-74) -/

/-- Python `line.replace("STEP: ", "")`: remove every (left-to-right, non-overlapping)
occurrence of the step marker `"STEP: "`. -/
def removeStepMarks : List Char → List Char
  | 'S' :: 'T' :: 'E' :: 'P' :: ':' :: ' ' :: rest => removeStepMarks rest
  | c :: cs => c :: removeStepMarks cs
  | [] => []

/-- One line's contribution to `re.findall(r"STEP: (.*)", logs)`: the text after
the first occurrence of `"STEP: "` in the line (the regex `.` does not cross
newlines, and `(.*)` greedily captures the rest of the line, so `findall`
yields exactly one capture per line containing the marker). -/
def stepCaptureOfLine : List Char → Option (List Char)
  | 'S' :: 'T' :: 'E' :: 'P' :: ':' :: ' ' :: rest => some rest
  | _ :: cs => stepCaptureOfLine cs
  | [] => none

/-- Table `ignore_list` (views.py line 62). -/
def ignore_list : List String :=
  ["setting up environment", "cleaning up resources", "starting test"]

/-- Python `any(ignore_phrase in s.lower() for ignore_phrase in ignore_list)`. -/
def isIgnoredStep (s : String) : Bool :=
  ignore_list.any (fun ph => containsChars ph.data (lowerChars s.data))

/-- Table `failure_keywords` (views.py line 64).  Note the first keyword is the
upper-case string `"FAIL"`, while each keyword is tested with
`keyword in line.lower()`. -/
def failure_keywords : List String :=
  ["FAIL", "panic", "error", "fatal"]

/-- Python `any(keyword in line.lower() for keyword in failure_keywords)`: the keyword
itself is NOT lowered by the source code. -/
def lineHasFailureKeyword (line : String) : Bool :=
  failure_keywords.any (fun kw => containsChars kw.data (lowerChars line.data))

/-- Python `logs.split('\n')`. -/
def logLines (logs : String) : List String :=
  (splitOnChar '\n' logs.data).map String.mk

/-- Python `line.startswith("STEP:")`. -/
def lineIsStep (line : String) : Bool :=
  isPrefixChars "STEP:".data line.data

/-- Python `line.replace("STEP: ", "").strip()`. -/
def stepTextOfLine (line : String) : String :=
  String.mk (stripChars (removeStepMarks line.data))

/-- The sentinel initial value of `last_step` (views.py line 65). -/
def noFailedStepSentinel : String :=
  "Log analysis did not find a failed step"

/-- The `for line in log_lines` loop of `parse_ginkgo_steps` (lines 67-73):
update the candidate on a non-ignored `STEP:` line, then break if the line
matches a failure keyword; the accumulator starts at the sentinel. -/
def findFailedStep : List String → String → String
  | [], last => last
  | line :: rest, last =>
    let last2 :=
      if lineIsStep line then
        if ¬ isIgnoredStep (stepTextOfLine line) then stepTextOfLine line else last
      else last
    if lineHasFailureKeyword line then last2 else findFailedStep rest last2

/-- Source line `all_steps = re.findall(r"STEP: (.*)", logs)`. -/
def allCapturedSteps (logs : String) : List String :=
  (logLines logs).filterMap (fun l => (stepCaptureOfLine l.data).map String.mk)

/-- Function `parse_ginkgo_steps(logs)` (views.py lines 60-74): the filtered step list
and the failed step (or sentinel). -/
def parse_ginkgo_steps (logs : String) : List String × String :=
  ((allCapturedSteps logs).filter (fun s => ¬ isIgnoredStep s),
   findFailedStep (logLines logs) noFailedStepSentinel)

/-! ### Sanity examples (from the demo data in `run_full_simulation`) -/

example :
    parse_ginkgo_steps
      "STEP: Deploying application stack\nSTEP: Verify backup integrity\nFAIL: Checksum mismatch" =
    (["Deploying application stack", "Verify backup integrity"], "Verify backup integrity") := rfl

example : parse_ginkgo_steps "no markers at all" = ([], noFailedStepSentinel) := rfl

example :
    parse_ginkgo_steps "STEP: setting up environment\nSTEP: Launching new VM\nERROR: boom" =
    (["Launching new VM"], "Launching new VM") := rfl

/-! ### Data model (views.py lines 13-58) -/

/-- Enum `ClassificationType` (views.py lines 13-29). -/
inductive ClassificationType where
  | KNOWN_FLAKE
  | INFRA_ERROR
  | PRODUCT_BUG
  | SETUP_FAILURE
  | ANSIBLE_DEPLOY_FAILURE
  | OCP_MYSQL_VALIDATION_FAILURE
  | OCP_MYSQL_CLEANUP_FAILURE
  | OCP_MYSQL_DEPLOY_FAILURE
  | BACKUP_INTEGRITY_FAILURE
  | BACKUP_PARTIALLY_FAILED
  | BACKUP_SUCCESSFUL
  | SKIP
  | NEW_SKIP
  | KNOWN_BUG_OADP_2345
  | KNOWN_AUTOMATION_ISSUE_OADP_2345
  | NEEDS_MANUAL_REVIEW
deriving DecidableEq

/-- Enum `ActionType` (views.py lines 47-54). -/
inductive ActionType where
  | CREATE_JIRA_TICKET
  | UPDATE_JIRA_TICKET
  | NOTIFY_SLACK
  | MARK_FOR_RERUN
  | MARK_FOR_MANUAL_REVIEW
  | RUN_CUSTOM_SCRIPT
  | DO_NOTHING
deriving DecidableEq

/-- A Python value as it appears inside the `Dict[str, Any]` fields of this
program: strings, the (hundredth-scaled) floats, the two enums, nested dicts
and lists. -/
inductive PyVal where
  | str : String → PyVal
  | num : Nat → PyVal
  | enumC : ClassificationType → PyVal
  | enumA : ActionType → PyVal
  | dict : List (String × PyVal) → PyVal
  | vlist : List PyVal → PyVal

/-- Dataclass `TestResult` (views.py lines 31-40).  The source default for `test_run_id`
is a fresh `uuid4` string; the embedding takes the id as an ordinary field
(every claim quantifies over runs stored under some id). -/
structure TestResult where
  test_name : String
  suite : String
  build_id : String
  environment : String
  logs : String
  oadp_version : String
  repository : String
  env_platform : String
  tags : List String := []
  test_run_id : String := ""
  rerun_count : Nat := 0
  steps : List String := []
  failed_step : Option String := none
  analysis : List (String × PyVal) := []

/-- Dataclass `ClassificationResult` (views.py lines 42-45); `confidence` in hundredths. -/
structure ClassificationResult where
  classifier_id : String
  classification_type : ClassificationType
  confidence : Nat
  details : List (String × PyVal) := []

/-- Dataclass `ActionCommand` (views.py lines 56-58). -/
structure ActionCommand where
  action_type : ActionType
  payload : List (String × PyVal)

/-! ### Python dict operations on association lists -/

/-- Assignment `d[k] = v` on a Python dict: replace the value in place if the key exists,
append the binding otherwise. -/
def pyDictInsert {κ α : Type} [DecidableEq κ]
    (m : List (κ × α)) (k : κ) (v : α) : List (κ × α) :=
  if m.any (fun p => decide (p.1 = k)) then
    m.map (fun p => if p.1 = k then (p.1, v) else p)
  else m ++ [(k, v)]

/-- Python `m.update(data)` on dicts: insert the bindings of `data` in order. -/
def pyDictUpdate {κ α : Type} [DecidableEq κ]
    (m data : List (κ × α)) : List (κ × α) :=
  data.foldl (fun acc kv => pyDictInsert acc kv.1 kv.2) m

/-- Python `m[k]` / `m.get(k)` on a dict (keys of the dicts built by this
program are unique, so first match equals the binding). -/
def dictLookup {κ α : Type} [DecidableEq κ] : List (κ × α) → κ → Option α
  | [], _ => none
  | p :: ps, k => if p.1 = k then some p.2 else dictLookup ps k

/-- Comprehension of key(x) to x over xs as an ordered dict: fold of inserts. -/
def pyDictOfBy {κ α : Type} [DecidableEq κ]
    (key : α → κ) (xs : List α) : List (κ × α) :=
  xs.foldl (fun m x => pyDictInsert m (key x) x) []

/-- Values of the ordered dict of key(x) to x over xs: deduplicate by `key`, keeping the
order of first appearance of each key and the last value seen for it. -/
def pyDedupBy {κ α : Type} [DecidableEq κ] (key : α → κ) (xs : List α) : List α :=
  (pyDictOfBy key xs).map (fun p => p.2)

/-- The last element of `xs` satisfying `p` (used to state last-write-wins). -/
def lastWith {α : Type} (p : α → Bool) (xs : List α) : Option α :=
  xs.reverse.find? p

/-- Key sequence with only first occurrences kept (used to state the ordering
of a Python dict's keys). -/
def dedupFirst {κ : Type} [DecidableEq κ] : List κ → List κ
  | [] => []
  | k :: ks => k :: (dedupFirst ks).filter (fun x => decide (¬ x = k))

/-! ### Run store: `DataContextService` (views.py lines 76-88)

The singleton service owns one mutable dict `SIMULATION_DB`; it is embedded as
a value of type `Store` threaded explicitly. -/

def Store : Type := List (String × TestResult)

/-- Method `save_test_result` (line 83): `self._db[result.test_run_id] = result`. -/
def save_test_result (db : Store) (result : TestResult) : Store :=
  pyDictInsert db result.test_run_id result

/-- Method `get_test_result` (line 84): `self._db.get(test_run_id)`. -/
def get_test_result (db : Store) (test_run_id : String) : Option TestResult :=
  dictLookup db test_run_id

/-- Method `update_analysis` (lines 85-86): if the id is a key of the store, merge
`analysis_data` into that record's `analysis` dict; otherwise do nothing. -/
def update_analysis (db : Store) (test_run_id : String)
    (analysis_data : List (String × PyVal)) : Store :=
  if db.any (fun e => decide (e.1 = test_run_id)) then
    db.map (fun e =>
      if e.1 = test_run_id then
        (e.1, { e.2 with analysis := pyDictUpdate e.2.analysis analysis_data })
      else e)
  else db

/-! ### Classifier engine (views.py lines 90-154) -/

/-- Method `_step_based_classifier` (lines 94-99).  `if not failed_step` is Python
falsiness: `None` or the empty string. -/
def stepClassifier (test_name : String) (failed_step : Option String) :
    List ClassificationResult :=
  match failed_step with
  | none => []
  | some fs =>
    if fs.data.isEmpty then []
    else if strContains test_name "test_mysql_backup" &&
            strContains fs "Verify backup integrity" then
      [⟨"STEP_BACKUP_INTEGRITY", .BACKUP_INTEGRITY_FAILURE, 100,
        [("reason", PyVal.str "Checksum mismatch"), ("failed_step", PyVal.str fs)]⟩]
    else []

/-- The literal-pattern table of `_regex_classifier` (lines 103-115), in dict
insertion order; every pattern is a metacharacter-free literal, so the
`re.IGNORECASE` search is a case-insensitive substring test. -/
def regexPatterns : List (String × ClassificationResult) :=
  [("Connection timed out",
    ⟨"REGEX_TIMEOUT", .KNOWN_FLAKE, 99, [("ticket", PyVal.str "PROJ-123")]⟩),
   ("database migration setup", ⟨"REGEX_DB_MIGRATE", .SETUP_FAILURE, 95, []⟩),
   ("mysql validation failed",
    ⟨"REGEX_MYSQL_VALIDATE", .OCP_MYSQL_VALIDATION_FAILURE, 96, []⟩),
   ("mysql cleanup failed",
    ⟨"REGEX_MYSQL_CLEANUP", .OCP_MYSQL_CLEANUP_FAILURE, 96, []⟩),
   ("ocp-mysql deploy failed",
    ⟨"REGEX_MYSQL_DEPLOY", .OCP_MYSQL_DEPLOY_FAILURE, 97, []⟩),
   ("backup completed with warnings",
    ⟨"REGEX_BACKUP_PARTIAL", .BACKUP_PARTIALLY_FAILED, 90, []⟩),
   ("backup successful", ⟨"REGEX_BACKUP_SUCCESS", .BACKUP_SUCCESSFUL, 100, []⟩),
   ("Test skipped due to unstable environment",
    ⟨"REGEX_SKIP_ENV", .SKIP, 100, []⟩),
   ("Skipping test, feature flag is disabled",
    ⟨"REGEX_SKIP_FLAG", .NEW_SKIP, 100, []⟩),
   ("error restoring snapshot oadp-2345",
    ⟨"REGEX_KNOWN_BUG_2345", .KNOWN_BUG_OADP_2345, 100,
     [("ticket", PyVal.str "OADP-2345")]⟩),
   ("automation framework panicked",
    ⟨"REGEX_KNOWN_AUTO_ISSUE_2345", .KNOWN_AUTOMATION_ISSUE_OADP_2345, 100,
     [("ticket", PyVal.str "AUTO-112")]⟩)]

/-- The suffix of `s` after the first occurrence of `lit`, if any
(the leftmost-match prefix of `re.search`). -/
def afterFirstOcc (lit : List Char) : List Char → Option (List Char)
  | [] => if lit.isEmpty then some [] else none
  | c :: cs =>
    if isPrefixChars lit (c :: cs) then some ((c :: cs).drop lit.length)
    else afterFirstOcc lit cs

/-- The capture of `use_role\":\"([^\"]+)\"` under a preceding greedy
DOTALL `.*`: the non-empty run of non-quote characters after the LAST
occurrence of `use_role":"` that is followed by such a run and a closing
quote. -/
def scanUseRole : List Char → Option (List Char)
  | [] => none
  | c :: cs =>
    match scanUseRole cs with
    | some g => some g
    | none =>
      if isPrefixChars "use_role\":\"".data (c :: cs) then
        let rest := (c :: cs).drop "use_role\":\"".data.length
        let grp := rest.takeWhile (fun ch => decide (¬ ch = '"'))
        if grp.isEmpty then none
        else if (rest.drop grp.length).take 1 = ['"'] then some grp
        else none
      else none

/-- Python `re.search(r"ansible-playbook error.*use_role\":\"([^\"]+)\"", logs, re.DOTALL)`
(line 121), returning the capture group. -/
def ansibleSearch (logs : String) : Option (List Char) :=
  match afterFirstOcc "ansible-playbook error".data logs.data with
  | none => none
  | some rest => scanUseRole rest

/-- Method `_regex_classifier` (lines 101-126): the pattern-table matches in order,
then the ansible match with `failed_role = group(1).split('/')[-1]`. -/
def regexClassifier (logs : String) : List ClassificationResult :=
  let found := regexPatterns.filterMap
    (fun pr => if strContainsCI logs pr.1 then some pr.2 else none)
  match ansibleSearch logs with
  | some g =>
    found ++ [⟨"REGEX_ANSIBLE_FAILURE", .ANSIBLE_DEPLOY_FAILURE, 98,
      [("failed_role", PyVal.str (String.mk ((splitOnChar '/' g).getLastD [])))]⟩]
  | none => found

/-- Method `_llm_classifier` (lines 128-136). -/
def llmClassifier (logs : String) : List ClassificationResult :=
  (if strContains (String.mk (lowerChars logs.data)) "nullpointerexception" then
    [⟨"LLM_NPE", .PRODUCT_BUG, 92, [("exception", PyVal.str "NullPointerException")]⟩]
  else []) ++
  (if strContains (String.mk (lowerChars logs.data)) "permission denied" then
    [⟨"LLM_PERMS", .INFRA_ERROR, 88, [("error", PyVal.str "Permission denied")]⟩]
  else [])

/-- Variable `all_classifications` (line 142): the three strategies concatenated. -/
def allClassifications (tr : TestResult) : List ClassificationResult :=
  regexClassifier tr.logs ++ llmClassifier tr.logs ++
    stepClassifier tr.test_name tr.failed_step

/-- The skip family `[ClassificationType.SKIP, ClassificationType.NEW_SKIP]`. -/
def skipTypes : List ClassificationType :=
  [.SKIP, .NEW_SKIP]

/-- The sort key relation of line 154 (`key=lambda x: x.confidence,
reverse=True`): `a` may come before `b` iff `b.confidence ≤ a.confidence`. -/
def confDesc (a b : ClassificationResult) : Prop :=
  b.confidence ≤ a.confidence

instance : DecidableRel confDesc :=
  fun a b => inferInstanceAs (Decidable (b.confidence ≤ a.confidence))

instance : IsTotal ClassificationResult confDesc :=
  ⟨fun a b => Nat.le_total b.confidence a.confidence⟩

instance : IsTrans ClassificationResult confDesc :=
  ⟨fun _ _ _ h1 h2 => Nat.le_trans h2 h1⟩

/-- The default candidate of line 151. -/
def defaultReviewResult : ClassificationResult :=
  ⟨"DEFAULT_REVIEW", .NEEDS_MANUAL_REVIEW, 50, []⟩

/-- The body of `classify` after the store fetch (lines 142-154): skip
exclusivity, manual-review default, then dedup by classifier id and a stable
sort by descending confidence (Python's `sorted` is stable; so is
`List.insertionSort`). -/
def classifyCore (tr : TestResult) : List ClassificationResult :=
  let all := allClassifications tr
  match all.filter (fun c => decide (c.classification_type ∈ skipTypes)) with
  | s :: _ => [s]
  | [] =>
    if all.isEmpty then [defaultReviewResult]
    else List.insertionSort confDesc (pyDedupBy (fun c => c.classifier_id) all)

/-- Method `ClassifierEngine.classify` (lines 138-154): fetch the run (empty result on
an unknown id), then classify its fields. -/
def classify (db : Store) (test_run_id : String) : List ClassificationResult :=
  match get_test_result db test_run_id with
  | none => []
  | some tr => classifyCore tr

/-! ### Decision engine (views.py lines 156-196)

`c.details["ticket"]` and `c.details["failed_role"]` are Python dict
indexings that raise `KeyError` when the key is absent, so the rule loop is
embedded in `Option`: `none` models the propagated exception. -/

/-- The `elif` chain of `_apply_rules` (lines 178-191) for one candidate. -/
def actionsFor (test : TestResult) (c : ClassificationResult) :
    Option (List ActionCommand) :=
  if c.classification_type = .PRODUCT_BUG then
    some [⟨.CREATE_JIRA_TICKET, [("test_name", PyVal.str test.test_name)]⟩]
  else if c.classification_type ∈
      [ClassificationType.KNOWN_BUG_OADP_2345,
       ClassificationType.KNOWN_AUTOMATION_ISSUE_OADP_2345] then
    match dictLookup c.details "ticket" with
    | some v => some [⟨.UPDATE_JIRA_TICKET, [("ticket", v)]⟩]
    | none => none
  else if c.classification_type = .BACKUP_INTEGRITY_FAILURE then
    some [⟨.NOTIFY_SLACK,
      [("channel", PyVal.str "#storage-team"), ("details", PyVal.dict c.details)]⟩]
  else if c.classification_type = .ANSIBLE_DEPLOY_FAILURE then
    match dictLookup c.details "failed_role" with
    | some v => some [⟨.NOTIFY_SLACK,
        [("channel", PyVal.str "#devops-ansible"), ("failed_role", v)]⟩]
    | none => none
  else if c.classification_type = .KNOWN_FLAKE then
    some [⟨.MARK_FOR_RERUN, [("reason", PyVal.str "Known flaky test")]⟩]
  else if c.classification_type = .INFRA_ERROR then
    some [⟨.RUN_CUSTOM_SCRIPT,
           [("script_path", PyVal.str "/scripts/cleanup_stale_resources.sh")]⟩,
          ⟨.MARK_FOR_MANUAL_REVIEW,
           [("reason", PyVal.str "Infrastructure instability")]⟩]
  else some []

/-- The `for c in classifications` accumulation loop (lines 178-191). -/
def ruleLoop (test : TestResult) : List ClassificationResult →
    Option (List ActionCommand)
  | [] => some []
  | c :: cs =>
    match actionsFor test c, ruleLoop test cs with
    | some a, some rest => some (a ++ rest)
    | _, _ => none

/-- The default action of lines 193-194. -/
def defaultReviewAction : ActionCommand :=
  ⟨.MARK_FOR_MANUAL_REVIEW, [("reason", PyVal.str "No specific rule matched")]⟩

/-- The accumulated `actions` list right before the final dedup (line 196),
including the `if not actions` default. -/
def accActions (test : TestResult) (classifications : List ClassificationResult) :
    Option (List ActionCommand) :=
  (ruleLoop test classifications).map
    (fun acts => if acts.isEmpty then [defaultReviewAction] else acts)

/-- Check `primary_classification ... in [SKIP, NEW_SKIP]` (lines 173-175):
the first candidate, when present, is in the skip family. -/
def primaryIsSkip (classifications : List ClassificationResult) : Bool :=
  match classifications with
  | [] => false
  | c :: _ => decide (c.classification_type ∈ skipTypes)

/-- Method `DecisionEngine._apply_rules` (lines 171-196): skip short-circuit, rule
loop with default, then dedup by action type with Python-dict semantics
(order of first appearance, last payload wins). -/
def apply_rules (test : TestResult) (classifications : List ClassificationResult) :
    Option (List ActionCommand) :=
  if primaryIsSkip classifications then
    some [⟨.DO_NOTHING, []⟩]
  else
    (accActions test classifications).map (pyDedupBy (fun a => a.action_type))

/-- Python `asdict` on a `ClassificationResult` (confidence in hundredths). -/
def asdictClassification (c : ClassificationResult) : PyVal :=
  .dict [("classifier_id", .str c.classifier_id),
         ("classification_type", .enumC c.classification_type),
         ("confidence", .num c.confidence),
         ("details", .dict c.details)]

/-- Python `asdict` on an `ActionCommand`. -/
def asdictAction (a : ActionCommand) : PyVal :=
  .dict [("action_type", .enumA a.action_type), ("payload", .dict a.payload)]

/-- The mutation of `test_result` at lines 161-162: install the extracted
steps and failed step. -/
def enrichedResult (tr : TestResult) : TestResult :=
  { tr with
    steps := (parse_ginkgo_steps tr.logs).1
    failed_step := some (parse_ginkgo_steps tr.logs).2 }

/-- Method `DecisionEngine.process_test_result` (lines 160-169): extract steps, save,
classify, apply rules, merge the analysis record; returns the new store and
the action commands (`none` models a propagated `KeyError`). -/
def process_test_result (db : Store) (tr : TestResult) :
    Store × Option (List ActionCommand) :=
  let tr2 := enrichedResult tr
  let db2 := save_test_result db tr2
  let cls := classify db2 tr2.test_run_id
  match apply_rules tr2 cls with
  | none => (db2, none)
  | some acts =>
    (update_analysis db2 tr2.test_run_id
      [("classifications", .vlist (cls.map asdictClassification)),
       ("actions", .vlist (acts.map asdictAction))],
     some acts)

/-! ### Sanity examples over the demo data -/

/-- A demo run from `run_full_simulation` (the feature-flag skip scenario). -/
def demoSkipRun : TestResult where
  test_name := "test_feature_x_flow"
  suite := "Feature-Flags"
  build_id := "build-513"
  environment := "dev"
  logs := "STEP: Checking feature flag\nINFO: Skipping test, feature flag is disabled"
  oadp_version := "1.5.0"
  repository := "feature-x"
  env_platform := "KIND"
  tags := ["feature-toggle"]
  test_run_id := "run-513"

/-- A demo run from `run_full_simulation` (the unclassified scenario). -/
def demoUnclassifiedRun : TestResult where
  test_name := "test_unclassified_failure"
  suite := "GUI"
  build_id := "build-525"
  environment := "staging"
  logs := "STEP: Clicking the 'Save' button\nERROR: Unexpected token '<' at position 0"
  oadp_version := "1.5.3"
  repository := "stage"
  env_platform := "AWS"
  tags := ["ui"]
  test_run_id := "run-525"

/-- A demo run from `run_full_simulation` (the permission-denied scenario). -/
def demoInfraRun : TestResult where
  test_name := "test_vm_provisioning_error"
  suite := "Infra"
  build_id := "build-511"
  environment := "ci"
  logs := "STEP: Allocating IP address\nSTEP: Launching new VM\nERROR: Request failed, permission denied when creating security group."
  oadp_version := "1.5.0"
  repository := "main"
  env_platform := "vSphere"
  tags := ["provisioning"]
  test_run_id := "run-511"
  failed_step := some "Launching new VM"

/-- The mysql-backup demo run of `run_full_simulation` (scenario C's shape). -/
def demoBackupRun : TestResult where
  test_name := "test_mysql_backup_and_verify"
  suite := "DB-Backup"
  build_id := "build-507"
  environment := "prod"
  logs := "STEP: Verify backup integrity\nFAIL: Checksum mismatch"
  oadp_version := "1.4.1"
  repository := "main"
  env_platform := "GCP"
  tags := ["db", "critical"]
  test_run_id := "run-507"

example : classifyCore demoSkipRun = [⟨"REGEX_SKIP_FLAG", .NEW_SKIP, 100, []⟩] := rfl

example : classifyCore demoUnclassifiedRun = [defaultReviewResult] := rfl

example :
    classifyCore demoInfraRun =
    [⟨"LLM_PERMS", .INFRA_ERROR, 88, [("error", PyVal.str "Permission denied")]⟩] := rfl

example :
    ansibleSearch "Error during command execution: ansible-playbook error: one or more host failed... use_role\":\".../roles/ocp-datagrid\"" =
    some (".../roles/ocp-datagrid".data) := rfl

example :
    regexClassifier "Error during command execution: ansible-playbook error: one or more host failed... use_role\":\".../roles/ocp-datagrid\"" =
    [⟨"REGEX_ANSIBLE_FAILURE", .ANSIBLE_DEPLOY_FAILURE, 98,
      [("failed_role", PyVal.str "ocp-datagrid")]⟩] := rfl


/-! ### Lemmas about the step-extractor loop -/

/-- If no line of `ls` is a non-ignored step-marker line, the loop accumulator
is never updated, so the loop returns its initial value whether or not it
breaks on a failure keyword. -/
theorem findFailedStep_const (ls : List String) (last : String)
    (h : ∀ l ∈ ls, ¬ (lineIsStep l = true ∧ ¬ isIgnoredStep (stepTextOfLine l) = true)) :
    findFailedStep ls last = last := by
  induction ls with
  | nil => rfl
  | cons line rest ih =>
    have hline := h line (List.mem_cons_self line rest)
    have hrest : ∀ l ∈ rest, ¬ (lineIsStep l = true ∧ ¬ isIgnoredStep (stepTextOfLine l) = true) :=
      fun l hl => h l (List.mem_cons_of_mem line hl)
    unfold findFailedStep
    have hlast2 :
        (if lineIsStep line then
          if ¬ isIgnoredStep (stepTextOfLine line) then stepTextOfLine line else last
        else last) = last := by
      by_cases hs : lineIsStep line = true
      · by_cases hi : isIgnoredStep (stepTextOfLine line) = true
        · simp [hs, hi]
        · exact absurd ⟨hs, hi⟩ hline
      · simp [hs]
    rw [hlast2]
    by_cases hk : lineHasFailureKeyword line = true
    · simp [hk]
    · simp [hk, ih hrest]

/-! ### Store lemmas -/

/-- Looking up the key just saved returns the saved record. -/
theorem dictLookup_pyDictInsert_self {κ α : Type} [DecidableEq κ]
    (m : List (κ × α)) (k : κ) (v : α) :
    dictLookup (pyDictInsert m k v) k = some v := by
  unfold pyDictInsert
  by_cases hmem : m.any (fun p => decide (p.1 = k)) = true
  · rw [if_pos hmem]
    induction m with
    | nil => simp at hmem
    | cons p ps ih =>
      by_cases hp : p.1 = k
      · simp [dictLookup, hp]
      · have hps : ps.any (fun q => decide (q.1 = k)) = true := by
          simpa [List.any_cons, hp] using hmem
        simp [dictLookup, hp, ih hps]
  · rw [if_neg hmem]
    induction m with
    | nil => simp [dictLookup]
    | cons p ps ih =>
      have hp : ¬ p.1 = k := by
        intro hpk
        exact hmem (by simp [List.any_cons, hpk])
      have hps : ¬ ps.any (fun q => decide (q.1 = k)) = true := by
        intro hh
        exact hmem (by simp [List.any_cons, hh])
      simpa [dictLookup, hp] using ih hps

/-- Replacing the value under key `k` in place leaves every other key's
lookup unchanged. -/
theorem dictLookup_map_replace {κ α : Type} [DecidableEq κ]
    (m : List (κ × α)) (k : κ) (v : α) (k2 : κ) (hne : ¬ k = k2) :
    dictLookup (m.map (fun p => if p.1 = k then (p.1, v) else p)) k2 =
      dictLookup m k2 := by
  have hne2 : ¬ k2 = k := fun hh => hne hh.symm
  induction m with
  | nil => rfl
  | cons p ps ih =>
    by_cases hp : p.1 = k
    · simp [dictLookup, hp, hne, hne2, ih]
    · by_cases hp2 : p.1 = k2
      · simp [dictLookup, hp, hp2, hne, hne2]
      · simp [dictLookup, hp, hp2, ih]

/-- Appending a binding for key `k` leaves every other key's lookup
unchanged. -/
theorem dictLookup_append_single {κ α : Type} [DecidableEq κ]
    (m : List (κ × α)) (k : κ) (v : α) (k2 : κ) (hne : ¬ k = k2) :
    dictLookup (m ++ [(k, v)]) k2 = dictLookup m k2 := by
  induction m with
  | nil => simp [dictLookup, hne]
  | cons p ps ih =>
    by_cases hp2 : p.1 = k2
    · simp [dictLookup, hp2]
    · simp [dictLookup, hp2, ih]

/-- Inserting under key `k` leaves every other key's lookup unchanged. -/
theorem dictLookup_pyDictInsert_other {κ α : Type} [DecidableEq κ]
    (m : List (κ × α)) (k : κ) (v : α) (k2 : κ) (hne : ¬ k = k2) :
    dictLookup (pyDictInsert m k v) k2 = dictLookup m k2 := by
  unfold pyDictInsert
  by_cases hmem : m.any (fun p => decide (p.1 = k)) = true
  · rw [if_pos hmem]
    exact dictLookup_map_replace m k v k2 hne
  · rw [if_neg hmem]
    exact dictLookup_append_single m k v k2 hne

/-- Fetching after `save_test_result` of the same id returns the saved record. -/
theorem get_save_self (db : Store) (r : TestResult) :
    get_test_result (save_test_result db r) r.test_run_id = some r :=
  dictLookup_pyDictInsert_self db r.test_run_id r

/-- A successful fetch means the store's membership test succeeds. -/
theorem any_of_get_some (db : Store) (tid : String) (tr : TestResult)
    (h : get_test_result db tid = some tr) :
    db.any (fun e => decide (e.1 = tid)) = true := by
  induction db with
  | nil => simp [get_test_result, dictLookup] at h
  | cons e es ih =>
    by_cases he : e.1 = tid
    · simp [List.any_cons, he]
    · have h2 : get_test_result es tid = some tr := by
        simpa [get_test_result, dictLookup, he] using h
      simp [List.any_cons, ih h2]

/-- A failed fetch means the store's membership test fails. -/
theorem any_of_get_none (db : Store) (tid : String)
    (h : get_test_result db tid = none) :
    db.any (fun e => decide (e.1 = tid)) = false := by
  induction db with
  | nil => rfl
  | cons e es ih =>
    by_cases he : e.1 = tid
    · simp [get_test_result, dictLookup, he] at h
    · have h2 : get_test_result es tid = none := by
        simpa [get_test_result, dictLookup, he] using h
      simp [List.any_cons, he, ih h2]

/-! ### `update_analysis` lemmas -/

/-- Under `update_analysis db tid _`, the record stored for the hit id is the
old record with only its `analysis` field rewritten. -/
theorem get_update_analysis_self (db : Store) (tid : String) (tr : TestResult)
    (data : List (String × PyVal)) (h : get_test_result db tid = some tr) :
    get_test_result (update_analysis db tid data) tid =
      some { tr with analysis := pyDictUpdate tr.analysis data } := by
  unfold update_analysis
  rw [if_pos (any_of_get_some db tid tr h)]
  induction db with
  | nil => simp [get_test_result, dictLookup] at h
  | cons e es ih =>
    by_cases he : e.1 = tid
    · have he2 : e.2 = tr := by
        simpa [get_test_result, dictLookup, he] using h
      simp [get_test_result, dictLookup, he, he2]
    · have h2 : get_test_result es tid = some tr := by
        simpa [get_test_result, dictLookup, he] using h
      simpa [get_test_result, dictLookup, he] using ih h2

/-- Rewriting the stored record under key `tid` in place leaves every other
key's lookup unchanged. -/
theorem dictLookup_map_reval {κ α : Type} [DecidableEq κ] (f : α → α)
    (es : List (κ × α)) (tid oid : κ) (hne : ¬ oid = tid) :
    dictLookup (es.map (fun e => if e.1 = tid then (e.1, f e.2) else e)) oid =
      dictLookup es oid := by
  induction es with
  | nil => rfl
  | cons e es ih =>
    by_cases he : e.1 = tid
    · have heo : ¬ e.1 = oid := fun hh => hne (by rw [← hh, he])
      rw [List.map_cons, if_pos he]
      show (if e.1 = oid then some (f e.2) else _) = _
      rw [if_neg heo]
      show _ = if e.1 = oid then some e.2 else dictLookup es oid
      rw [if_neg heo]
      exact ih
    · rw [List.map_cons, if_neg he]
      by_cases heo : e.1 = oid
      · show (if e.1 = oid then some e.2 else _) = _
        rw [if_pos heo]
        show _ = if e.1 = oid then some e.2 else dictLookup es oid
        rw [if_pos heo]
      · show (if e.1 = oid then some e.2 else _) = _
        rw [if_neg heo]
        show _ = if e.1 = oid then some e.2 else dictLookup es oid
        rw [if_neg heo]
        exact ih

/-- Method `update_analysis` touches no record other than the one with the given id. -/
theorem get_update_analysis_other (db : Store) (tid : String)
    (data : List (String × PyVal)) (oid : String) (hne : ¬ oid = tid) :
    get_test_result (update_analysis db tid data) oid = get_test_result db oid := by
  unfold update_analysis
  by_cases hmem : db.any (fun e => decide (e.1 = tid)) = true
  · rw [if_pos hmem]
    exact dictLookup_map_reval
      (fun r => { r with analysis := pyDictUpdate r.analysis data }) db tid oid hne
  · rw [if_neg hmem]

/-- Unfolding `lastWith` over a snoc: the appended element wins when it matches. -/
theorem lastWith_snoc {α : Type} (p : α → Bool) (xs : List α) (x : α) :
    lastWith p (xs ++ [x]) = if p x then some x else lastWith p xs := by
  by_cases hx : p x = true
  · simp [lastWith, List.find?, hx]
  · simp [lastWith, List.find?, hx]

/-- Python `m.update(data)` then lookup: the last binding of `data` for the key wins,
and keys without a binding in `data` read from `m`. -/
theorem dictLookup_pyDictUpdate {κ α : Type} [DecidableEq κ]
    (m data : List (κ × α)) (k : κ) :
    dictLookup (pyDictUpdate m data) k =
      match lastWith (fun pr => decide (pr.1 = k)) data with
      | some pr => some pr.2
      | none => dictLookup m k := by
  induction data using List.reverseRecOn with
  | nil => simp [pyDictUpdate, lastWith]
  | append_singleton data kv ih =>
    have hsnoc : pyDictUpdate m (data ++ [kv]) =
        pyDictInsert (pyDictUpdate m data) kv.1 kv.2 := by
      simp [pyDictUpdate, List.foldl_append]
    rw [hsnoc, lastWith_snoc]
    by_cases hk : kv.1 = k
    · simp [hk, dictLookup_pyDictInsert_self]
    · simp [hk, dictLookup_pyDictInsert_other _ _ _ _ hk, ih]

/-! ### Lemmas about Python dict-comprehension dedup (`pyDedupBy`) -/

/-- Membership in the ordered dict after one insert. -/
theorem mem_pyDictInsert {κ α : Type} [DecidableEq κ]
    {q : κ × α} {m : List (κ × α)} {k : κ} {v : α}
    (h : q ∈ pyDictInsert m k v) : q = (k, v) ∨ (q ∈ m ∧ ¬ q.1 = k) := by
  unfold pyDictInsert at h
  by_cases hmem : m.any (fun p => decide (p.1 = k)) = true
  · rw [if_pos hmem] at h
    rcases List.mem_map.mp h with ⟨p, hp, hq⟩
    by_cases hpk : p.1 = k
    · left
      rw [if_pos hpk] at hq
      rw [← hq, hpk]
    · right
      rw [if_neg hpk] at hq
      exact ⟨hq ▸ hp, hq ▸ hpk⟩
  · rw [if_neg hmem] at h
    rcases List.mem_append.mp h with hq | hq
    · right
      refine ⟨hq, fun hqk => hmem ?_⟩
      exact List.any_eq_true.mpr ⟨q, hq, by simp [hqk]⟩
    · left
      simpa using hq

/-- Keys of the ordered dict after one insert. -/
theorem keys_pyDictInsert {κ α : Type} [DecidableEq κ]
    (m : List (κ × α)) (k : κ) (v : α) :
    (pyDictInsert m k v).map Prod.fst =
      if m.any (fun p => decide (p.1 = k)) = true then m.map Prod.fst
      else m.map Prod.fst ++ [k] := by
  unfold pyDictInsert
  by_cases hmem : m.any (fun p => decide (p.1 = k)) = true
  · rw [if_pos hmem, if_pos hmem, List.map_map]
    refine List.map_congr_left ?_
    intro p _
    by_cases hp : p.1 = k
    · simp [hp]
    · simp [hp]
  · rw [if_neg hmem, if_neg hmem]
    simp

/-- The store membership test is a test on dict keys. -/
theorem any_key_iff_mem_keys {κ α : Type} [DecidableEq κ]
    (m : List (κ × α)) (k : κ) :
    m.any (fun p => decide (p.1 = k)) = true ↔ k ∈ m.map Prod.fst := by
  simp [List.any_eq_true, List.mem_map]

/-- Unfolding `pyDictOfBy` over a snoc is one `pyDictInsert`. -/
theorem pyDictOfBy_snoc {κ α : Type} [DecidableEq κ]
    (key : α → κ) (xs : List α) (x : α) :
    pyDictOfBy key (xs ++ [x]) = pyDictInsert (pyDictOfBy key xs) (key x) x := by
  simp [pyDictOfBy, List.foldl_append]

/-- Every binding of the dict built by `pyDictOfBy` is keyed by its value. -/
theorem pyDictOfBy_key_consistent {κ α : Type} [DecidableEq κ]
    (key : α → κ) (xs : List α) :
    ∀ p ∈ pyDictOfBy key xs, key p.2 = p.1 := by
  induction xs using List.reverseRecOn with
  | nil => intro p hp; simp [pyDictOfBy] at hp
  | append_singleton xs x ih =>
    intro p hp
    rw [pyDictOfBy_snoc] at hp
    rcases mem_pyDictInsert hp with hq | ⟨hq, _⟩
    · rw [hq]
    · exact ih p hq

/-- Membership in `dedupFirst` is list membership. -/
theorem mem_dedupFirst {κ : Type} [DecidableEq κ] (l : List κ) (x : κ) :
    x ∈ dedupFirst l ↔ x ∈ l := by
  induction l with
  | nil => simp [dedupFirst]
  | cons k ks ih =>
    by_cases hx : x = k
    · simp [dedupFirst, hx]
    · simp [dedupFirst, hx, List.mem_filter, ih]

/-- Unfolding `dedupFirst` over a snoc. -/
theorem dedupFirst_snoc {κ : Type} [DecidableEq κ] (l : List κ) (k : κ) :
    dedupFirst (l ++ [k]) =
      if k ∈ l then dedupFirst l else dedupFirst l ++ [k] := by
  induction l with
  | nil => simp [dedupFirst]
  | cons a l ih =>
    show dedupFirst (a :: (l ++ [k])) = _
    rw [show dedupFirst (a :: (l ++ [k])) =
        a :: (dedupFirst (l ++ [k])).filter (fun x => decide (¬ x = a)) from rfl]
    rw [ih]
    by_cases hkl : k ∈ l
    · rw [if_pos hkl, if_pos (List.mem_cons_of_mem a hkl)]
      rfl
    · rw [if_neg hkl]
      by_cases hka : k = a
      · rw [if_pos (hka ▸ List.mem_cons_self a l)]
        rw [List.filter_append]
        simp [hka, dedupFirst]
      · have hk2 : ¬ k ∈ a :: l := by
          intro hmem
          rcases List.mem_cons.mp hmem with hh | hh
          · exact hka hh
          · exact hkl hh
        rw [if_neg hk2, List.filter_append]
        simp [hka, dedupFirst]

/-- The keys of the dict built by `pyDictOfBy` are the first occurrences of
the element keys, in order. -/
theorem keys_pyDictOfBy {κ α : Type} [DecidableEq κ]
    (key : α → κ) (xs : List α) :
    (pyDictOfBy key xs).map Prod.fst = dedupFirst (xs.map key) := by
  induction xs using List.reverseRecOn with
  | nil => simp [pyDictOfBy, dedupFirst]
  | append_singleton xs x ih =>
    rw [pyDictOfBy_snoc, keys_pyDictInsert, List.map_append, List.map_cons,
      List.map_nil, dedupFirst_snoc, ih]
    by_cases hmem : key x ∈ xs.map key
    · have : (pyDictOfBy key xs).any (fun p => decide (p.1 = key x)) = true := by
        rw [any_key_iff_mem_keys, ih, mem_dedupFirst]
        exact hmem
      rw [if_pos this, if_pos hmem]
    · have : ¬ (pyDictOfBy key xs).any (fun p => decide (p.1 = key x)) = true := by
        rw [any_key_iff_mem_keys, ih, mem_dedupFirst]
        exact hmem
      rw [if_neg this, if_neg hmem]

/-- The `dedupFirst` output has no duplicates. -/
theorem dedupFirst_nodup {κ : Type} [DecidableEq κ] (l : List κ) :
    (dedupFirst l).Nodup := by
  induction l with
  | nil => simp [dedupFirst]
  | cons k ks ih =>
    show (k :: (dedupFirst ks).filter (fun x => decide (¬ x = k))).Nodup
    refine List.Nodup.cons ?_ (ih.filter _)
    intro hmem
    rcases List.mem_filter.mp hmem with ⟨_, hk⟩
    simp at hk

/-- In the dict built by `pyDictOfBy`, each binding holds the LAST element of
the input with that key (Python dict-comprehension last-write-wins). -/
theorem pyDictOfBy_lastWith {κ α : Type} [DecidableEq κ]
    (key : α → κ) (xs : List α) :
    ∀ p ∈ pyDictOfBy key xs, lastWith (fun y => decide (key y = p.1)) xs = some p.2 := by
  induction xs using List.reverseRecOn with
  | nil => intro p hp; simp [pyDictOfBy] at hp
  | append_singleton xs x ih =>
    intro p hp
    rw [pyDictOfBy_snoc] at hp
    rcases mem_pyDictInsert hp with hq | ⟨hq, hqk⟩
    · rw [hq]
      rw [lastWith_snoc]
      simp
    · rw [lastWith_snoc]
      have hx : ¬ (key x = p.1) := fun hh => hqk (hh ▸ rfl) |>.elim
      simp only [hx, decide_eq_true_eq, if_false, decide_False]
      · exact ih p hq

/-- The deduplicated list maps under `key` to the first-occurrence key
sequence of the input. -/
theorem pyDedupBy_map_key {κ α : Type} [DecidableEq κ]
    (key : α → κ) (xs : List α) :
    (pyDedupBy key xs).map key = dedupFirst (xs.map key) := by
  have hmm : (pyDedupBy key xs).map key = (pyDictOfBy key xs).map Prod.fst := by
    rw [pyDedupBy, List.map_map]
    exact List.map_congr_left (fun p hp => pyDictOfBy_key_consistent key xs p hp)
  rw [hmm, keys_pyDictOfBy]

/-- The deduplicated list has pairwise distinct keys. -/
theorem pyDedupBy_pairwise {κ α : Type} [DecidableEq κ]
    (key : α → κ) (xs : List α) :
    (pyDedupBy key xs).Pairwise (fun a b => ¬ key a = key b) := by
  have hnd : ((pyDedupBy key xs).map key).Nodup := by
    rw [pyDedupBy_map_key]
    exact dedupFirst_nodup _
  rw [List.Nodup, List.pairwise_map] at hnd
  exact hnd

/-- Each survivor of the dedup is the LAST input element with its key. -/
theorem pyDedupBy_last {κ α : Type} [DecidableEq κ]
    (key : α → κ) (xs : List α) :
    ∀ a ∈ pyDedupBy key xs,
      lastWith (fun y => decide (key y = key a)) xs = some a := by
  intro a ha
  rcases List.mem_map.mp ha with ⟨p, hp, hpa⟩
  have hk : key p.2 = p.1 := pyDictOfBy_key_consistent key xs p hp
  have := pyDictOfBy_lastWith key xs p hp
  rw [← hpa, ← hk] at *
  simpa [hpa, hk] using this

/-! ### Stability of the confidence sort -/

/-- Inserting `a` with `orderedInsert confDesc` passes only over elements of
strictly larger confidence, so the sublist at any fixed confidence value `q`
gains `a` at its front when `a.confidence = q` and is untouched otherwise. -/
theorem filter_orderedInsert_conf (q : Nat) (a : ClassificationResult)
    (l : List ClassificationResult) :
    (List.orderedInsert confDesc a l).filter (fun c => decide (c.confidence = q)) =
      if a.confidence = q then
        a :: l.filter (fun c => decide (c.confidence = q))
      else l.filter (fun c => decide (c.confidence = q)) := by
  induction l with
  | nil =>
    by_cases ha : a.confidence = q
    · simp [List.orderedInsert, ha]
    · simp [List.orderedInsert, ha]
  | cons b l ih =>
    by_cases hab : confDesc a b
    · rw [List.orderedInsert_of_le confDesc l hab]
      by_cases ha : a.confidence = q
      · simp [ha]
      · simp [ha]
    · have hlt : b.confidence > a.confidence := by
        have := hab
        unfold confDesc at this
        exact Nat.lt_of_not_le this
      rw [show List.orderedInsert confDesc a (b :: l) =
          b :: List.orderedInsert confDesc a l from by
        simp [List.orderedInsert, hab]]
      by_cases ha : a.confidence = q
      · have hb : ¬ b.confidence = q := by
          intro hh
          rw [← ha] at hh
          exact Nat.lt_irrefl _ (hh ▸ hlt)
        simp [List.filter_cons, hb, ih, ha]
      · by_cases hb : b.confidence = q
        · simp [List.filter_cons, hb, ih, ha]
        · simp [List.filter_cons, hb, ih, ha]

/-- A stable sort by confidence preserves the relative order of candidates of
any fixed confidence value: the filtered sublist at each value is unchanged. -/
theorem filter_insertionSort_conf (q : Nat) (l : List ClassificationResult) :
    (List.insertionSort confDesc l).filter (fun c => decide (c.confidence = q)) =
      l.filter (fun c => decide (c.confidence = q)) := by
  induction l with
  | nil => rfl
  | cons a l ih =>
    show (List.orderedInsert confDesc a (List.insertionSort confDesc l)).filter _ = _
    rw [filter_orderedInsert_conf]
    by_cases ha : a.confidence = q
    · simp [List.filter_cons, ha, ih]
    · simp [List.filter_cons, ha, ih]

/-! ### Claim theorems -/

/-- C1 (counterexample): a log in which NO line contains a failure keyword for
which `parse_ginkgo_steps` does NOT return the sentinel — the loop returns the
last non-ignored step even when no failure keyword is ever seen. -/
theorem c1_counterexample :
    ((logLines "STEP: Verify data").all (fun l => ! lineHasFailureKeyword l)) = true ∧
    (parse_ginkgo_steps "STEP: Verify data").2 ≠ noFailedStepSentinel :=
  ⟨rfl, by decide⟩

/-- C1 (amended): the sentinel is returned exactly when no non-ignored
step-marker line is ever seen; the absence of failure keywords alone does not
produce the sentinel. -/
theorem c1_sentinel_iff_no_candidate (logs : String)
    (h : ∀ l ∈ logLines logs,
      ¬ (lineIsStep l = true ∧ ¬ isIgnoredStep (stepTextOfLine l) = true)) :
    (parse_ginkgo_steps logs).2 = noFailedStepSentinel :=
  findFailedStep_const (logLines logs) noFailedStepSentinel h

theorem c1_sentinel_iff_no_candidate_witness :
    (∀ l ∈ logLines "STEP: setting up environment\nERROR: kaboom",
      ¬ (lineIsStep l = true ∧ ¬ isIgnoredStep (stepTextOfLine l) = true)) ∧
    (parse_ginkgo_steps "STEP: setting up environment\nERROR: kaboom").2 =
      noFailedStepSentinel :=
  ⟨by decide, c1_sentinel_iff_no_candidate _ (by decide)⟩

/-- C2 (code bug): the keyword test is `keyword in line.lower()` with the
upper-case keyword `"FAIL"`, which can never match a lowercased line, so a
`FAIL:` line does NOT stop the scan: a step line AFTER the failure line
becomes the failed step. -/
theorem c2_fail_keyword_dead :
    lineHasFailureKeyword "FAIL: Checksum mismatch" = false ∧
    parse_ginkgo_steps
        "STEP: Verify data\nFAIL: Checksum mismatch\nSTEP: After failure step" =
      (["Verify data", "After failure step"], "After failure step") :=
  ⟨rfl, rfl⟩

/-- C6: a known run for which no strategy yields any candidate classifies as
exactly one manual-review candidate at confidence 0.5 (= 50 hundredths). -/
theorem c6_default_manual_review (db : Store) (tid : String) (tr : TestResult)
    (h1 : get_test_result db tid = some tr) (h2 : allClassifications tr = []) :
    classify db tid = [defaultReviewResult] ∧
    defaultReviewResult.classification_type = ClassificationType.NEEDS_MANUAL_REVIEW ∧
    defaultReviewResult.confidence = 50 := by
  refine ⟨?_, rfl, rfl⟩
  simp only [classify, h1]
  simp [classifyCore, h2]

theorem c6_default_manual_review_witness :
    get_test_result [("run-525", demoUnclassifiedRun)] "run-525" = some demoUnclassifiedRun ∧
    allClassifications demoUnclassifiedRun = [] ∧
    classify [("run-525", demoUnclassifiedRun)] "run-525" = [defaultReviewResult] :=
  ⟨rfl, rfl,
    (c6_default_manual_review [("run-525", demoUnclassifiedRun)] "run-525"
      demoUnclassifiedRun rfl rfl).1⟩

/-- C9: classification is a deterministic function of the run fields it reads
(log text, test name, failed step): two stores holding runs that agree on
those fields classify identically. -/
theorem c9_deterministic (db1 db2 : Store) (tid1 tid2 : String)
    (tr1 tr2 : TestResult) (h1 : get_test_result db1 tid1 = some tr1)
    (h2 : get_test_result db2 tid2 = some tr2)
    (hlog : tr1.logs = tr2.logs) (hname : tr1.test_name = tr2.test_name)
    (hfs : tr1.failed_step = tr2.failed_step) :
    classify db1 tid1 = classify db2 tid2 := by
  have hall : allClassifications tr1 = allClassifications tr2 := by
    unfold allClassifications
    rw [hlog, hname, hfs]
  simp only [classify, h1, h2]
  simp only [classifyCore, hall]

/-- C10: `update_analysis` on an id absent from the store is a silent no-op. -/
theorem c10_update_unknown_id_noop (db : Store) (tid : String)
    (data : List (String × PyVal)) (h : get_test_result db tid = none) :
    update_analysis db tid data = db := by
  unfold update_analysis
  simp [any_of_get_none db tid h]

theorem c10_update_unknown_id_noop_witness :
    get_test_result [("run-507", demoBackupRun)] "missing-id" = none ∧
    update_analysis [("run-507", demoBackupRun)] "missing-id"
        [("classifications", PyVal.vlist [])] = [("run-507", demoBackupRun)] :=
  ⟨rfl, c10_update_unknown_id_noop _ _ _ rfl⟩

/-- A second store and a field-identical copy of the mysql-backup run (other
metadata differs) for the determinism witness. -/
def demoBackupRunCopy : TestResult :=
  { demoBackupRun with
    suite := "Other-Suite"
    build_id := "build-999"
    environment := "ci"
    test_run_id := "run-999" }

theorem c9_deterministic_witness :
    get_test_result [("run-507", demoBackupRun)] "run-507" = some demoBackupRun ∧
    get_test_result [("run-999", demoBackupRunCopy)] "run-999" = some demoBackupRunCopy ∧
    demoBackupRun.logs = demoBackupRunCopy.logs ∧
    demoBackupRun.test_name = demoBackupRunCopy.test_name ∧
    demoBackupRun.failed_step = demoBackupRunCopy.failed_step ∧
    classify [("run-507", demoBackupRun)] "run-507" =
      classify [("run-999", demoBackupRunCopy)] "run-999" :=
  ⟨rfl, rfl, rfl, rfl, rfl,
    c9_deterministic [("run-507", demoBackupRun)] [("run-999", demoBackupRunCopy)]
      "run-507" "run-999" demoBackupRun demoBackupRunCopy rfl rfl rfl rfl rfl⟩

/-- C7: `update_analysis` on a stored run rewrites exactly the keys bound in
the update mapping inside that run's analysis record (last binding wins),
leaves every other analysis key unchanged, leaves every other field of the
run unchanged (only `analysis` is rewritten), and leaves every other record
unchanged. -/
theorem c7_shallow_merge (db : Store) (tid : String) (tr : TestResult)
    (data : List (String × PyVal)) (h : get_test_result db tid = some tr) :
    get_test_result (update_analysis db tid data) tid =
      some { tr with analysis := pyDictUpdate tr.analysis data } ∧
    (∀ k pr, lastWith (fun b => decide (b.1 = k)) data = some pr →
      dictLookup (pyDictUpdate tr.analysis data) k = some pr.2) ∧
    (∀ k, lastWith (fun b => decide (b.1 = k)) data = none →
      dictLookup (pyDictUpdate tr.analysis data) k = dictLookup tr.analysis k) ∧
    (∀ oid, ¬ oid = tid →
      get_test_result (update_analysis db tid data) oid = get_test_result db oid) := by
  refine ⟨get_update_analysis_self db tid tr data h, ?_, ?_, ?_⟩
  · intro k pr hl
    rw [dictLookup_pyDictUpdate, hl]
  · intro k hl
    rw [dictLookup_pyDictUpdate, hl]
  · intro oid hne
    exact get_update_analysis_other db tid data oid hne

/-- A stored run that already carries an `action_results` analysis entry, to
exercise retention of unrelated analysis keys. -/
def c7StoredRun : TestResult :=
  { demoBackupRun with
    analysis := [("action_results", PyVal.vlist [PyVal.str "recorded"])] }

theorem c7_shallow_merge_witness :
    get_test_result [("run-507", c7StoredRun)] "run-507" = some c7StoredRun ∧
    dictLookup
      (pyDictUpdate c7StoredRun.analysis
        [("classifications", PyVal.vlist []), ("actions", PyVal.vlist [])])
      "action_results" = some (PyVal.vlist [PyVal.str "recorded"]) :=
  ⟨rfl, by
    have h3 := (c7_shallow_merge [("run-507", c7StoredRun)] "run-507" c7StoredRun
      [("classifications", PyVal.vlist []), ("actions", PyVal.vlist [])] rfl).2.2.1
    rw [h3 "action_results" rfl]
    rfl⟩

/-- C3: if any strategy yields a skip-family candidate for a stored run,
`classify` returns exactly one candidate — the first skip-family candidate in
concatenation order — and `_apply_rules` on that result returns exactly the
single Do-Nothing command. -/
theorem c3_skip_exclusive (db : Store) (tid : String) (tr : TestResult)
    (h : get_test_result db tid = some tr) (c : ClassificationResult)
    (hc : c ∈ allClassifications tr)
    (hskip : c.classification_type ∈ skipTypes) :
    ∃ s, classify db tid = [s] ∧
      ((allClassifications tr).filter
        (fun x => decide (x.classification_type ∈ skipTypes))).head? = some s ∧
      s.classification_type ∈ skipTypes ∧
      apply_rules tr [s] = some [⟨ActionType.DO_NOTHING, []⟩] := by
  have hcf : c ∈ (allClassifications tr).filter
      (fun x => decide (x.classification_type ∈ skipTypes)) :=
    List.mem_filter.mpr ⟨hc, by simpa⟩
  obtain ⟨s, ss, hfil⟩ : ∃ s ss, (allClassifications tr).filter
      (fun x => decide (x.classification_type ∈ skipTypes)) = s :: ss := by
    cases hh : (allClassifications tr).filter
        (fun x => decide (x.classification_type ∈ skipTypes)) with
    | nil =>
      rw [hh] at hcf
      cases hcf
    | cons s ss => exact ⟨s, ss, rfl⟩
  have hs_mem : s ∈ (allClassifications tr).filter
      (fun x => decide (x.classification_type ∈ skipTypes)) := by
    rw [hfil]
    exact List.mem_cons_self s ss
  have hs_skip : s.classification_type ∈ skipTypes := by
    have := (List.mem_filter.mp hs_mem).2
    simpa using this
  refine ⟨s, ?_, ?_, hs_skip, ?_⟩
  · simp only [classify, h]
    simp only [classifyCore, hfil]
  · rw [hfil]
    rfl
  · simp [apply_rules, primaryIsSkip, hs_skip]

theorem c3_skip_exclusive_witness :
    get_test_result [("run-513", demoSkipRun)] "run-513" = some demoSkipRun ∧
    (⟨"REGEX_SKIP_FLAG", ClassificationType.NEW_SKIP, 100, []⟩ : ClassificationResult) ∈
      allClassifications demoSkipRun ∧
    ClassificationType.NEW_SKIP ∈ skipTypes ∧
    ∃ s, classify [("run-513", demoSkipRun)] "run-513" = [s] ∧
      ((allClassifications demoSkipRun).filter
        (fun x => decide (x.classification_type ∈ skipTypes))).head? = some s ∧
      s.classification_type ∈ skipTypes ∧
      apply_rules demoSkipRun [s] = some [⟨ActionType.DO_NOTHING, []⟩] := by
  have hc : (⟨"REGEX_SKIP_FLAG", ClassificationType.NEW_SKIP, 100, []⟩ :
      ClassificationResult) ∈ allClassifications demoSkipRun := by
    rw [show allClassifications demoSkipRun =
      [⟨"REGEX_SKIP_FLAG", ClassificationType.NEW_SKIP, 100, []⟩] from rfl]
    exact List.mem_singleton.mpr rfl
  exact ⟨rfl, hc, by decide,
    c3_skip_exclusive [("run-513", demoSkipRun)] "run-513" demoSkipRun rfl
      ⟨"REGEX_SKIP_FLAG", ClassificationType.NEW_SKIP, 100, []⟩ hc (by decide)⟩

/-- C4: whenever `_apply_rules` returns an action list, that list has at most
one command per action kind; on the non-skip path each surviving command is
the LAST command of the accumulated list with its kind (last-write-wins
payload), and the kinds appear in order of first appearance in the
accumulated list. -/
theorem c4_action_dedup (test : TestResult) (cs : List ClassificationResult)
    (res : List ActionCommand) (h : apply_rules test cs = some res) :
    res.Pairwise (fun a b => ¬ a.action_type = b.action_type) ∧
    (primaryIsSkip cs = false →
      ∃ acc, accActions test cs = some acc ∧
        (∀ a ∈ res,
          lastWith (fun x => decide (x.action_type = a.action_type)) acc = some a) ∧
        res.map (fun a => a.action_type) =
          dedupFirst (acc.map (fun a => a.action_type))) := by
  unfold apply_rules at h
  by_cases hskip : primaryIsSkip cs = true
  · rw [if_pos hskip] at h
    have hres : [(⟨ActionType.DO_NOTHING, []⟩ : ActionCommand)] = res := by
      simpa using h
    constructor
    · rw [← hres]
      exact List.pairwise_singleton _ _
    · intro hfalse
      rw [hskip] at hfalse
      exact Bool.noConfusion hfalse
  · rw [if_neg hskip] at h
    cases hacc : accActions test cs with
    | none =>
      rw [hacc] at h
      exact Option.noConfusion h
    | some acc =>
      rw [hacc] at h
      have hres : pyDedupBy (fun a => a.action_type) acc = res := by
        simpa using h
      constructor
      · rw [← hres]
        exact pyDedupBy_pairwise _ _
      · intro _
        refine ⟨acc, rfl, ?_, ?_⟩
        · rw [← hres]
          exact pyDedupBy_last _ acc
        · rw [← hres]
          exact pyDedupBy_map_key _ acc

/-- A two-candidate classification list for the dedup witness. -/
def c4Classifications : List ClassificationResult :=
  [⟨"LLM_NPE", .PRODUCT_BUG, 92, []⟩, ⟨"REGEX_TIMEOUT", .KNOWN_FLAKE, 99, []⟩]

/-- The action list `_apply_rules` produces for `c4Classifications`. -/
def c4Actions : List ActionCommand :=
  [⟨.CREATE_JIRA_TICKET, [("test_name", PyVal.str "test_unclassified_failure")]⟩,
   ⟨.MARK_FOR_RERUN, [("reason", PyVal.str "Known flaky test")]⟩]

theorem c4_action_dedup_witness :
    apply_rules demoUnclassifiedRun c4Classifications = some c4Actions ∧
    (c4Actions.Pairwise (fun a b => ¬ a.action_type = b.action_type) ∧
    (primaryIsSkip c4Classifications = false →
      ∃ acc, accActions demoUnclassifiedRun c4Classifications = some acc ∧
        (∀ a ∈ c4Actions,
          lastWith (fun x => decide (x.action_type = a.action_type)) acc = some a) ∧
        c4Actions.map (fun a => a.action_type) =
          dedupFirst (acc.map (fun a => a.action_type)))) :=
  ⟨rfl, c4_action_dedup demoUnclassifiedRun c4Classifications c4Actions rfl⟩

/-- C5: for a stored run whose merged candidate set is non-empty with no
skip-family candidate, `classify` returns the id-deduplicated candidates in a
stable descending-confidence order: the output is sorted non-increasingly,
is a permutation of the deduplicated concatenation, and candidates of any
fixed confidence keep their concatenation order. -/
theorem c5_sorted_nonskip (db : Store) (tid : String) (tr : TestResult)
    (h1 : get_test_result db tid = some tr)
    (h2 : (allClassifications tr).filter
      (fun x => decide (x.classification_type ∈ skipTypes)) = [])
    (h3 : ¬ allClassifications tr = []) :
    classify db tid =
      List.insertionSort confDesc
        (pyDedupBy (fun c => c.classifier_id) (allClassifications tr)) ∧
    List.Sorted confDesc (classify db tid) ∧
    List.Perm (classify db tid)
      (pyDedupBy (fun c => c.classifier_id) (allClassifications tr)) ∧
    ∀ q, (classify db tid).filter (fun c => decide (c.confidence = q)) =
      (pyDedupBy (fun c => c.classifier_id) (allClassifications tr)).filter
        (fun c => decide (c.confidence = q)) := by
  have hempty : (allClassifications tr).isEmpty = false := by
    cases hcc : allClassifications tr with
    | nil => exact absurd hcc h3
    | cons a l => rfl
  have hcls : classify db tid =
      List.insertionSort confDesc
        (pyDedupBy (fun c => c.classifier_id) (allClassifications tr)) := by
    simp only [classify, h1]
    simp only [classifyCore, h2, hempty]
    rfl
  refine ⟨hcls, ?_, ?_, ?_⟩
  · rw [hcls]
    exact List.sorted_insertionSort confDesc _
  · rw [hcls]
    exact List.perm_insertionSort confDesc _
  · intro q
    rw [hcls]
    exact filter_insertionSort_conf q _

/-- A run matching two non-skip strategies with distinct confidences. -/
def c5Run : TestResult where
  test_name := "test_mixed_failures"
  suite := "E2E"
  build_id := "build-600"
  environment := "staging"
  logs := "WARN: Connection timed out\nNOTE: permission denied for agent"
  oadp_version := "1.5.3"
  repository := "main"
  env_platform := "AWS"
  test_run_id := "run-600"

theorem c5_sorted_nonskip_witness :
    get_test_result [("run-600", c5Run)] "run-600" = some c5Run ∧
    (allClassifications c5Run).filter
      (fun x => decide (x.classification_type ∈ skipTypes)) = [] ∧
    ¬ allClassifications c5Run = [] ∧
    classify [("run-600", c5Run)] "run-600" =
      List.insertionSort confDesc
        (pyDedupBy (fun c => c.classifier_id) (allClassifications c5Run)) := by
  have h3 : ¬ allClassifications c5Run = [] := by
    rw [show allClassifications c5Run =
      [⟨"REGEX_TIMEOUT", .KNOWN_FLAKE, 99, [("ticket", PyVal.str "PROJ-123")]⟩,
       ⟨"LLM_PERMS", .INFRA_ERROR, 88, [("error", PyVal.str "Permission denied")]⟩] from rfl]
    exact List.cons_ne_nil _ _
  exact ⟨rfl, rfl, h3,
    (c5_sorted_nonskip [("run-600", c5Run)] "run-600" c5Run rfl rfl h3).1⟩

/-- The candidate produced by the structural strategy in scenario C. -/
def c8BackupCand : ClassificationResult :=
  ⟨"STEP_BACKUP_INTEGRITY", .BACKUP_INTEGRITY_FAILURE, 100,
   [("reason", PyVal.str "Checksum mismatch"),
    ("failed_step", PyVal.str "Verify backup integrity")]⟩

/-- The Slack notification command produced by the rule engine in scenario C. -/
def c8NotifyCmd : ActionCommand :=
  ⟨.NOTIFY_SLACK,
   [("channel", PyVal.str "#storage-team"),
    ("details", PyVal.dict c8BackupCand.details)]⟩

/-- C8 (scenario C): any run with log
`"STEP: Verify backup integrity\nFAIL: Checksum mismatch"` and a test name
containing `"test_mysql_backup"` classifies as Backup Integrity Failure, and
the pipeline's action list contains a Notify Slack command whose payload
channel is the storage-team channel. -/
theorem c8_scenario_c (db : Store) (tr : TestResult)
    (h1 : tr.logs = "STEP: Verify backup integrity\nFAIL: Checksum mismatch")
    (h2 : strContains tr.test_name "test_mysql_backup" = true) :
    ∃ cand acts,
      classify (save_test_result db (enrichedResult tr))
        (enrichedResult tr).test_run_id = [cand] ∧
      cand.classification_type = ClassificationType.BACKUP_INTEGRITY_FAILURE ∧
      (process_test_result db tr).2 = some acts ∧
      ∃ a ∈ acts, a.action_type = ActionType.NOTIFY_SLACK ∧
        dictLookup a.payload "channel" = some (PyVal.str "#storage-team") := by
  have hfs : (enrichedResult tr).failed_step = some "Verify backup integrity" := by
    show some (parse_ginkgo_steps tr.logs).2 = _
    rw [h1]
    rfl
  have hstep : stepClassifier tr.test_name (some "Verify backup integrity") =
      [c8BackupCand] := by
    unfold stepClassifier
    rw [h2]
    rfl
  have hall : allClassifications (enrichedResult tr) = [c8BackupCand] := by
    unfold allClassifications
    rw [show (enrichedResult tr).logs = tr.logs from rfl, h1,
      show (enrichedResult tr).test_name = tr.test_name from rfl, hfs]
    rw [show regexClassifier
        "STEP: Verify backup integrity\nFAIL: Checksum mismatch" = [] from rfl]
    rw [show llmClassifier
        "STEP: Verify backup integrity\nFAIL: Checksum mismatch" = [] from rfl]
    rw [hstep]
    rfl
  have hcore : classifyCore (enrichedResult tr) = [c8BackupCand] := by
    simp only [classifyCore, hall]
    rfl
  have hclassify : classify (save_test_result db (enrichedResult tr))
      (enrichedResult tr).test_run_id = [c8BackupCand] := by
    simp only [classify, get_save_self db (enrichedResult tr)]
    exact hcore
  have happly : apply_rules (enrichedResult tr) [c8BackupCand] =
      some [c8NotifyCmd] := rfl
  have hproc : (process_test_result db tr).2 = some [c8NotifyCmd] := by
    simp only [process_test_result, hclassify, happly]
  refine ⟨c8BackupCand, [c8NotifyCmd], hclassify, rfl, hproc, c8NotifyCmd, ?_, rfl, rfl⟩
  exact List.mem_singleton.mpr rfl

theorem c8_scenario_c_witness :
    demoBackupRun.logs = "STEP: Verify backup integrity\nFAIL: Checksum mismatch" ∧
    strContains demoBackupRun.test_name "test_mysql_backup" = true ∧
    ∃ cand acts,
      classify (save_test_result [] (enrichedResult demoBackupRun))
        (enrichedResult demoBackupRun).test_run_id = [cand] ∧
      cand.classification_type = ClassificationType.BACKUP_INTEGRITY_FAILURE ∧
      (process_test_result [] demoBackupRun).2 = some acts ∧
      ∃ a ∈ acts, a.action_type = ActionType.NOTIFY_SLACK ∧
        dictLookup a.payload "channel" = some (PyVal.str "#storage-team") :=
  ⟨rfl, rfl, c8_scenario_c [] demoBackupRun rfl rfl⟩
